import Mathlib

/-!
Shallow embedding of the interactive canvas-table widget implemented in
src/src/App.tsx.

The widget draws a fixed 8-column grid (cell 80 px wide, 30 px tall) and lets
the user move or resize contiguous item spans with the mouse.  The embedding
models:

* the data model, an item being a pair of a starting position and a size
  (App.tsx lines 10 and 264-267);
* the coordinate mapper turning a pixel position into a linear cell index
  (App.tsx lines 36-37 and 88-89);
* the pointer-down hit classification, handleMouseDown (App.tsx lines 23-73);
* the gesture-update part of the pointer-move handler, handleMouseMove
  (App.tsx lines 119-145); the cursor-affordance code of lines 91-117 only
  styles the cursor and is not needed by any property proved here;
* the renderer's splitting of an item span into row segments
  (App.tsx lines 228-255).

Pixel coordinates and grid indices are modeled as integers.  JavaScript's
Math.floor of a real division by a positive constant is floor division, which
for a positive divisor coincides with Lean's integer division on Int; the
JavaScript remainder operator truncates toward zero and is Int.tmod.

React's setState calls inside a forEach loop follow last-write-wins
semantics: the value observed after the handler returns is the argument of
the final setState call executed.  The folds below model exactly that.
-/

/-- An item of the table: a contiguous run of grid cells described by its
starting linear cell index and its length in cells (App.tsx line 10). -/
structure Item where
  startingPosition : Int
  size : Int
deriving DecidableEq

/-- The three gesture types of the drag state (App.tsx line 19).  The
source's string literal "end" is a Lean keyword, rendered here as end'. -/
inductive DragType where
  | start
  | end'
  | move
deriving DecidableEq

/-- The component state: the pair of React states draggingItem and
dragOffset (App.tsx lines 17-21). -/
structure DragState where
  draggingItem : Option (Nat × DragType)
  dragOffset : Option Int
deriving DecidableEq

/-- Coordinate mapper (App.tsx lines 36-37 and 88-89):
floor(y / cellHeight) * cols + floor(x / cellWidth) with cellWidth 80,
cellHeight 30, cols 8. -/
def cellIndex (x y : Int) : Int :=
  y / 30 * 8 + x / 80

/-- Border hit test for one item at pointer-down (App.tsx lines 42-57): a
start hit needs the clicked cell to be the item's first cell and the click to
fall in the inner 10 px of the cell's left edge; an end hit needs the clicked
cell to be the item's last cell and the click to fall in the inner 10 px of
the right edge.  The start test comes first in the source's if/else-if. -/
def borderHit (x pos : Int) (item : Item) : Option DragType :=
  if pos = item.startingPosition ∧ x.tmod 80 ≤ 10 then
    some DragType.start
  else if pos = item.startingPosition + item.size - 1 ∧ 80 - x.tmod 80 ≤ 10 then
    some DragType.end'
  else
    none

/-- Body (move) hit test for one item (App.tsx lines 62-65): the clicked cell
lies inside the half-open span of the item. -/
def moveHit (pos : Int) (item : Item) : Bool :=
  item.startingPosition ≤ pos ∧ pos < item.startingPosition + item.size

/-- A forEach loop whose body conditionally overwrites state: the result is
the value produced by the last iteration that fired, or the initial value
when none fired.  This is React's last-write-wins setState semantics. -/
def overwriteFold {α σ : Type} (g : α → Option σ) (l : List α) (init : σ) : σ :=
  l.foldl (fun acc a => match g a with | some s => s | none => acc) init

/-- Pointer-down handler (App.tsx lines 23-73).  First forEach: border hit
test over all items, each hit overwriting draggingItem and setting the
isResizing flag; dragOffset is never written in this phase.  Second forEach,
run only when no border hit fired: body hit test, each hit overwriting both
draggingItem and dragOffset. -/
def handleMouseDown (x y : Int) (data : List Item) (st : DragState) : DragState :=
  let pos := cellIndex x y
  let b :=
    overwriteFold
      (fun p : Nat × Item =>
        (borderHit x pos p.2).map fun t =>
          ((some (p.1, t) : Option (Nat × DragType)), true))
      data.enum (st.draggingItem, false)
  if b.2 then
    { draggingItem := b.1, dragOffset := st.dragOffset }
  else
    overwriteFold
      (fun p : Nat × Item =>
        if moveHit pos p.2 then
          some ⟨some (p.1, DragType.move), some (pos - p.2.startingPosition)⟩
        else none)
      data.enum { draggingItem := b.1, dragOffset := st.dragOffset }

/-- The update emitted for one pointer-move while a gesture is active
(App.tsx lines 124-145), as a function of the gesture type, the dragged item,
the hovered cell index and the captured drag offset.  Returns none when the
source emits no callback. -/
def gestureUpdate (t : DragType) (item : Item) (pos : Int) (off : Option Int) :
    Option Item :=
  match t with
  | DragType.move =>
    let newPosition := pos - off.getD 0
    if newPosition ≠ item.startingPosition then
      some { startingPosition := newPosition, size := item.size }
    else
      none
  | DragType.start =>
    if pos < item.startingPosition + item.size - 1 then
      some { startingPosition := pos,
             size := item.size + (item.startingPosition - pos) }
    else
      none
  | DragType.end' =>
    if pos > item.startingPosition then
      some { startingPosition := item.startingPosition,
             size := pos - item.startingPosition + 1 }
    else
      none

/-- Gesture-update part of the pointer-move handler (App.tsx lines 119-145):
when no gesture is active nothing is emitted; otherwise the dragged item is
looked up by its captured index and the update, if any, is reported with that
index to onUpdateItem. -/
def handleMouseMove (x y : Int) (data : List Item) (st : DragState) :
    Option (Nat × Item) :=
  let pos := cellIndex x y
  match st.draggingItem with
  | none => none
  | some (i, t) =>
    match data[i]? with
    | none => none
    | some item => (gestureUpdate t item pos st.dragOffset).map fun u => (i, u)

/-- The renderer's while loop splitting an item span into row segments
(App.tsx lines 229-254): each iteration takes
min(remainingSize, cols - currentColumn) cells starting at currentPosition.
The loop is given as fuel the number of cells of the span, which bounds the
number of iterations since every iteration consumes at least one cell. -/
def drawSegments (cols : Int) : Nat → Int → Int → List (Int × Int)
  | 0, _, _ => []
  | fuel + 1, remainingSize, currentPosition =>
    if remainingSize ≤ 0 then []
    else
      let col := currentPosition.tmod cols
      let cellsInRow := min remainingSize (cols - col)
      (currentPosition, cellsInRow) ::
        drawSegments cols fuel (remainingSize - cellsInRow)
          (currentPosition + cellsInRow)

/-- The list of (first cell, cell count) row segments drawn for one item
(App.tsx lines 228-255). -/
def itemSegments (cols : Int) (item : Item) : List (Int × Int) :=
  drawSegments cols item.size.toNat item.size item.startingPosition

/-! ### Helper lemmas about the overwrite folds -/

/-- Prepending an element shifts the default of getLast?.getD. -/
lemma getLast?_getD_cons {σ : Type} (a : σ) (l : List σ) (init : σ) :
    ((a :: l).getLast?).getD init = (l.getLast?).getD a := by
  induction l generalizing a init with
  | nil => rfl
  | cons b l ih => rw [List.getLast?_cons_cons, ih b init, ih b a]

/-- An overwriting forEach loop ends in the value written by the last
iteration that fired, or in the initial value when none fired. -/
lemma overwriteFold_eq {α σ : Type} (g : α → Option σ) (l : List α) (init : σ) :
    overwriteFold g l init = ((l.filterMap g).getLast?).getD init := by
  induction l generalizing init with
  | nil => rfl
  | cons a l ih =>
    unfold overwriteFold at ih ⊢
    rw [List.foldl_cons, List.filterMap_cons]
    cases h : g a with
    | none => simp only [h]; exact ih init
    | some s => simp only [h]; rw [ih s, getLast?_getD_cons]

/-- Filtering with a conditional some is mapping over a Boolean filter. -/
lemma filterMap_ite {α β : Type} (q : α → Bool) (f : α → β) (l : List α) :
    (l.filterMap fun a => if q a then some (f a) else none)
      = (l.filter q).map f := by
  induction l with
  | nil => rfl
  | cons a l ih =>
    rw [List.filterMap_cons, List.filter_cons]
    cases hq : q a <;> simp [hq, ih]

/-- The border-hit forEach of handleMouseDown ends bound to the last border
match in list order, with the isResizing flag set, or stays at its initial
value when no border matched. -/
lemma borderFold_eq (x pos : Int) (l : List (Nat × Item))
    (init : Option (Nat × DragType) × Bool) :
    overwriteFold
        (fun p : Nat × Item =>
          (borderHit x pos p.2).map fun t =>
            ((some (p.1, t) : Option (Nat × DragType)), true))
        l init
      = (((l.filterMap fun p => (borderHit x pos p.2).map fun t => (p.1, t)).map
            fun h => ((some h : Option (Nat × DragType)), true)).getLast?).getD
          init := by
  rw [overwriteFold_eq, List.map_filterMap]
  simp only [Option.map_map]
  rfl

/-- The move-hit forEach of handleMouseDown ends bound to the last body match
in list order, capturing that item's offset, or stays at its initial value
when no item matched. -/
lemma moveFold_eq (pos : Int) (l : List (Nat × Item)) (init : DragState) :
    overwriteFold
        (fun p : Nat × Item =>
          if moveHit pos p.2 then
            some ⟨some (p.1, DragType.move), some (pos - p.2.startingPosition)⟩
          else none)
        l init
      = (((l.filter fun p => moveHit pos p.2).map fun p =>
            DragState.mk (some (p.1, DragType.move))
              (some (pos - p.2.startingPosition))).getLast?).getD init := by
  rw [overwriteFold_eq, filterMap_ite]

/-! ### Claim theorems -/

/-- C6.  The coordinate mapper is a pure function of the pixel coordinates
computing floor(y / 30) * 8 + floor(x / 80), and it is piecewise constant:
every pixel inside the 80 by 30 region of column cx and row cy maps to the
same cell index cy * 8 + cx. -/
theorem cellIndex_piecewise (x y cx cy : Int)
    (hx1 : 80 * cx ≤ x) (hx2 : x < 80 * (cx + 1))
    (hy1 : 30 * cy ≤ y) (hy2 : y < 30 * (cy + 1)) :
    cellIndex x y = cy * 8 + cx := by
  unfold cellIndex
  omega

/-- Witness for cellIndex_piecewise: pixel (402, 35) lies in column 5, row 1
and maps to cell 13. -/
theorem cellIndex_piecewise_inst : cellIndex 402 35 = 1 * 8 + 5 :=
  cellIndex_piecewise 402 35 5 1 (by decide) (by decide) (by decide) (by decide)

/-- C7.  The renderer splits the span of the item with startingPosition 5 and
size 10 over 8 columns into exactly two row segments: one of 3 cells starting
at cell 5 (so covering cells 5 to 7 of row 0) and one of 7 cells starting at
cell 8 (so covering cells 8 to 14 of row 1). -/
theorem segments_5_10_8 :
    itemSegments 8 (Item.mk 5 10) = [(5, 3), (8, 7)]
      ∧ (itemSegments 8 (Item.mk 5 10)).map (fun s => (s.1, s.1 + s.2 - 1))
          = [(5, 7), (8, 14)] := by
  constructor <;> rfl

/-- C2.  While a move gesture is active on item i with captured offset off,
a pointer move emits exactly when the hovered cell minus the offset differs
from the item's current startingPosition, and the emitted update has
startingPosition equal to hovered cell minus offset and the item's size
unchanged. -/
theorem move_update_eq (x y off : Int) (data : List Item) (i : Nat)
    (item : Item) (hget : data[i]? = some item) :
    handleMouseMove x y data (DragState.mk (some (i, DragType.move)) (some off))
      = if cellIndex x y - off = item.startingPosition then none
        else some (i, Item.mk (cellIndex x y - off) item.size) := by
  simp only [handleMouseMove, hget, gestureUpdate]
  by_cases h : cellIndex x y - off = item.startingPosition <;>
    simp [h, Item.mk.injEq]

/-- Witness for move_update_eq: with the single item at start 5 of size 10,
offset 2 and hovered cell 5, the emitted update moves the item to cell 3
keeping size 10. -/
theorem move_update_eq_inst :
    handleMouseMove 402 0 [Item.mk 5 10]
        (DragState.mk (some (0, DragType.move)) (some 2))
      = some (0, Item.mk 3 10) := by
  have h := move_update_eq 402 0 2 [Item.mk 5 10] 0 (Item.mk 5 10) rfl
  simpa using h

/-- C3.  While a start-resize gesture is active on item i, a pointer move
emits nothing when the hovered cell is at or beyond start + size - 1;
otherwise it emits startingPosition equal to the hovered cell and size equal
to the old size plus (old start minus hovered cell), and the emitted span
never falls below one cell. -/
theorem startResize_guard (x y : Int) (off : Option Int) (data : List Item)
    (i : Nat) (item : Item) (hget : data[i]? = some item) :
    (item.startingPosition + item.size - 1 ≤ cellIndex x y →
        handleMouseMove x y data (DragState.mk (some (i, DragType.start)) off)
          = none)
    ∧ (cellIndex x y < item.startingPosition + item.size - 1 →
        handleMouseMove x y data (DragState.mk (some (i, DragType.start)) off)
          = some (i, Item.mk (cellIndex x y)
              (item.size + (item.startingPosition - cellIndex x y)))
        ∧ 1 ≤ item.size + (item.startingPosition - cellIndex x y)) := by
  constructor
  · intro h
    simp only [handleMouseMove, hget, gestureUpdate]
    rw [if_neg (by omega)]
    rfl
  · intro h
    refine ⟨?_, by omega⟩
    simp only [handleMouseMove, hget, gestureUpdate]
    rw [if_pos h]
    rfl

/-- Witness for startResize_guard: dragging the start border of the item at
start 5 of size 10 to hovered cell 3 emits the update with start 3 and size
12, and that size is at least one. -/
theorem startResize_guard_inst :
    handleMouseMove 240 0 [Item.mk 5 10]
        (DragState.mk (some (0, DragType.start)) none)
      = some (0, Item.mk 3 12) := by
  have h := (startResize_guard 240 0 none [Item.mk 5 10] 0 (Item.mk 5 10)
    rfl).2 (by decide)
  simpa using h.1

/-- C4.  While an end-resize gesture is active on item i, a pointer move
emits nothing when the hovered cell is at or before the item's start;
otherwise it emits an unchanged startingPosition and size equal to hovered
cell minus start plus 1, and the emitted span never falls below one cell. -/
theorem endResize_guard (x y : Int) (off : Option Int) (data : List Item)
    (i : Nat) (item : Item) (hget : data[i]? = some item) :
    (cellIndex x y ≤ item.startingPosition →
        handleMouseMove x y data (DragState.mk (some (i, DragType.end')) off)
          = none)
    ∧ (item.startingPosition < cellIndex x y →
        handleMouseMove x y data (DragState.mk (some (i, DragType.end')) off)
          = some (i, Item.mk item.startingPosition
              (cellIndex x y - item.startingPosition + 1))
        ∧ 1 ≤ cellIndex x y - item.startingPosition + 1) := by
  constructor
  · intro h
    simp only [handleMouseMove, hget, gestureUpdate]
    rw [if_neg (by omega)]
    rfl
  · intro h
    refine ⟨?_, by omega⟩
    simp only [handleMouseMove, hget, gestureUpdate]
    rw [if_pos (by omega)]
    rfl

/-- Witness for endResize_guard: dragging the end border of the item at
start 5 of size 10 to hovered cell 6 emits the update with start 5 and
size 2. -/
theorem endResize_guard_inst :
    handleMouseMove 480 0 [Item.mk 5 10]
        (DragState.mk (some (0, DragType.end')) none)
      = some (0, Item.mk 5 2) := by
  have h := (endResize_guard 480 0 none [Item.mk 5 10] 0 (Item.mk 5 10)
    rfl).2 (by decide)
  simpa using h.1

/-- C5.  Every update emitted by a start-resize gesture holds the end
boundary fixed: the emitted startingPosition plus the emitted size equals the
old startingPosition plus the old size. -/
theorem startResize_end_fixed (x y : Int) (off : Option Int)
    (data : List Item) (i j : Nat) (item u : Item)
    (hget : data[i]? = some item)
    (hemit : handleMouseMove x y data
        (DragState.mk (some (i, DragType.start)) off) = some (j, u)) :
    u.startingPosition + u.size = item.startingPosition + item.size := by
  simp only [handleMouseMove, hget, gestureUpdate] at hemit
  by_cases h : cellIndex x y < item.startingPosition + item.size - 1
  · rw [if_pos h] at hemit
    simp only [Option.map_some', Option.some.injEq, Prod.mk.injEq] at hemit
    rw [← hemit.2]
    dsimp only
    omega
  · rw [if_neg h] at hemit
    simp at hemit

/-- Witness for startResize_end_fixed: the start-resize update from the item
at start 5 of size 10 to start 3 and size 12 keeps the end boundary, as
3 + 12 = 5 + 10. -/
theorem startResize_end_fixed_inst : (3 : Int) + 12 = 5 + 10 :=
  startResize_end_fixed 240 0 none [Item.mk 5 10] 0 0 (Item.mk 5 10)
    (Item.mk 3 12) rfl (by decide)

/-- C10.  Every update emitted by a resize gesture, start-resize or
end-resize, has size at least 2: the strict guards make an emitted size of
exactly 1 unreachable. -/
theorem resize_size_ge_two (x y : Int) (off : Option Int) (data : List Item)
    (i j : Nat) (item u : Item) (t : DragType)
    (hget : data[i]? = some item)
    (ht : t = DragType.start ∨ t = DragType.end')
    (hemit : handleMouseMove x y data (DragState.mk (some (i, t)) off)
        = some (j, u)) :
    2 ≤ u.size := by
  rcases ht with ht | ht <;> subst ht <;>
    simp only [handleMouseMove, hget, gestureUpdate] at hemit <;>
    [by_cases h : cellIndex x y < item.startingPosition + item.size - 1;
     by_cases h : cellIndex x y > item.startingPosition]
  · rw [if_pos h] at hemit
    simp only [Option.map_some', Option.some.injEq, Prod.mk.injEq] at hemit
    rw [← hemit.2]
    dsimp only
    omega
  · rw [if_neg h] at hemit
    simp at hemit
  · rw [if_pos h] at hemit
    simp only [Option.map_some', Option.some.injEq, Prod.mk.injEq] at hemit
    rw [← hemit.2]
    dsimp only
    omega
  · rw [if_neg h] at hemit
    simp at hemit

/-- Witness for resize_size_ge_two: the end-resize of the item at start 5 of
size 10 toward hovered cell 6 emits size exactly 2, which satisfies the
bound. -/
theorem resize_size_ge_two_inst : 2 ≤ (Item.mk 5 2).size :=
  resize_size_ge_two 480 0 none [Item.mk 5 10] 0 0 (Item.mk 5 10)
    (Item.mk 5 2) DragType.end' rfl (Or.inr rfl) (by decide)

/-- C9.  No bounds clamping is applied to emitted gesture updates: a move
gesture with hovered cell 0 and captured offset 2 emits a negative
startingPosition, and a move gesture hovering cell 47 with the item of size
15 emits a span reaching past the 48 cells of the grid used by the app. -/
theorem no_bounds_clamping :
    (∃ x y data st i u,
        handleMouseMove x y data st = some (i, u)
          ∧ st.draggingItem = some (i, DragType.move)
          ∧ u.startingPosition < 0)
      ∧ ∃ x y data st i u,
          handleMouseMove x y data st = some (i, u)
            ∧ st.draggingItem = some (i, DragType.move)
            ∧ 48 < u.startingPosition + u.size := by
  constructor
  · exact ⟨0, 0, [Item.mk 5 10],
      DragState.mk (some (0, DragType.move)) (some 2), 0, Item.mk (-2) 10,
      by decide, rfl, by decide⟩
  · exact ⟨563, 150, [Item.mk 20 15],
      DragState.mk (some (0, DragType.move)) (some 0), 0, Item.mk 47 15,
      by decide, rfl, by decide⟩

/-- C1 counterexample.  At the click with pixel x 402, y 0 the clicked cell
is 5 and both items of the list match the start-border test, yet the gesture
binds to item 1, the last matching item, not to the earliest-index matching
item 0 as the claim states. -/
theorem firstBorderMatch_cex :
    borderHit 402 (cellIndex 402 0) (Item.mk 5 3) = some DragType.start
      ∧ borderHit 402 (cellIndex 402 0) (Item.mk 5 4) = some DragType.start
      ∧ (handleMouseDown 402 0 [Item.mk 5 3, Item.mk 5 4]
            (DragState.mk none none)).draggingItem ≠ some (0, DragType.start)
      ∧ (handleMouseDown 402 0 [Item.mk 5 3, Item.mk 5 4]
            (DragState.mk none none)).draggingItem
          = some (1, DragType.start) := by
  refine ⟨by decide, by decide, by decide, by decide⟩

/-- C1 amended.  At pointer-down, when at least one item passes the border
test, the gesture binds to the last matching item in list order, since every
later match overwrites the recorded gesture, and move-hit testing is skipped
for this gesture: the stored drag offset is left untouched. -/
theorem mouseDown_binds_last_border_match (x y : Int) (data : List Item)
    (st : DragState) (j : Nat) (t : DragType)
    (hlast : ((data.enum.filterMap fun p =>
          (borderHit x (cellIndex x y) p.2).map fun u => (p.1, u)).getLast?)
        = some (j, t)) :
    handleMouseDown x y data st = DragState.mk (some (j, t)) st.dragOffset := by
  simp only [handleMouseDown]
  rw [borderFold_eq, List.getLast?_map, hlast]
  rfl

/-- Witness for mouseDown_binds_last_border_match: with both items matching
the start border of cell 5, the gesture binds to item 1 with no offset
captured. -/
theorem mouseDown_binds_last_border_match_inst :
    handleMouseDown 402 0 [Item.mk 5 3, Item.mk 5 4] (DragState.mk none none)
      = DragState.mk (some (1, DragType.start)) none :=
  mouseDown_binds_last_border_match 402 0 [Item.mk 5 3, Item.mk 5 4]
    (DragState.mk none none) 1 DragType.start (by decide)

/-- C8.  At pointer-down, when no item passes the border test and at least
one item's span contains the clicked cell, the gesture binds to the last
matching item in list order with the move type, capturing the offset of the
clicked cell from that item's startingPosition. -/
theorem mouseDown_binds_last_move_match (x y : Int) (data : List Item)
    (st : DragState) (j : Nat) (it : Item)
    (hnob : (data.enum.filterMap fun p =>
        (borderHit x (cellIndex x y) p.2).map fun u => (p.1, u)) = [])
    (hlast : ((data.enum.filter fun p => moveHit (cellIndex x y) p.2).getLast?)
        = some (j, it)) :
    handleMouseDown x y data st
      = DragState.mk (some (j, DragType.move))
          (some (cellIndex x y - it.startingPosition)) := by
  simp only [handleMouseDown]
  rw [borderFold_eq, hnob]
  simp only [List.map_nil, List.getLast?_nil, Option.getD_none]
  rw [moveFold_eq, List.getLast?_map, hlast]
  rfl

/-- Witness for mouseDown_binds_last_move_match: clicking cell 6 away from
any border with two overlapping spans binds the gesture to item 1 with
offset 1. -/
theorem mouseDown_binds_last_move_match_inst :
    handleMouseDown 520 0 [Item.mk 3 5, Item.mk 5 4] (DragState.mk none none)
      = DragState.mk (some (1, DragType.move)) (some 1) :=
  mouseDown_binds_last_move_match 520 0 [Item.mk 3 5, Item.mk 5 4]
    (DragState.mk none none) 1 (Item.mk 5 4) (by decide) (by decide)
